import Mathlib

/-!
# libstrsafe: result codes, flag words and the Printf dispatch surface

A shallow embedding of `src/strsafe.h` and `src/strsafe_printf.c`.

* `HRESULT` and `DWORD` are `uint32_t`: they are natural numbers below `2 ^ 32`; the
  header's `(uint32_t)` casts are written `% 2 ^ 32`.
* `size_t` capacities are natural numbers.
* A code unit is a natural number, zero being the terminator.
-/

namespace StrSafe

/-! ## `strsafe.h`: result codes, flags, ceiling, predicates -/

/-- The cast `(uint32_t)x` of the header. -/
def toUInt32 (x : Nat) : Nat := x % 2 ^ 32

/-- Header line `#define S_OK (uint32_t)0x00000000` -/
def S_OK : Nat := toUInt32 0x00000000

/-- Header line `#define STRSAFE_E_END_OF_FILE (uint32_t)0x00000001` -/
def STRSAFE_E_END_OF_FILE : Nat := toUInt32 0x00000001

/-- Header line `#define STRSAFE_E_INVALID_PARAMETER (uint32_t)0x00000002` -/
def STRSAFE_E_INVALID_PARAMETER : Nat := toUInt32 0x00000002

/-- Header line `#define STRSAFE_E_INSUFFICIENT_BUFFER (uint32_t)0x00000004` -/
def STRSAFE_E_INSUFFICIENT_BUFFER : Nat := toUInt32 0x00000004

/-- Header line `#define STRSAFE_IGNORE_NULLS (uint32_t)0x00000100` -/
def STRSAFE_IGNORE_NULLS : Nat := toUInt32 0x00000100

/-- Header line `#define STRSAFE_FILL_BEHIND_NULL (uint32_t)0x00000200` -/
def STRSAFE_FILL_BEHIND_NULL : Nat := toUInt32 0x00000200

/-- Header line `#define STRSAFE_FILL_ON_FAILURE (uint32_t)0x00000400` -/
def STRSAFE_FILL_ON_FAILURE : Nat := toUInt32 0x00000400

/-- Header line `#define STRSAFE_NULL_ON_FAILURE (uint32_t)0x00000800` -/
def STRSAFE_NULL_ON_FAILURE : Nat := toUInt32 0x00000800

/-- Header line `#define STRSAFE_NO_TRUNCATION (uint32_t)0x00001000` -/
def STRSAFE_NO_TRUNCATION : Nat := toUInt32 0x00001000

/-- Header line `#define STRSAFE_MAX_CCH 0x7fffffff` -/
def STRSAFE_MAX_CCH : Nat := 0x7fffffff

/-- Header line `#define SUCCEEDED(result) ((result) == S_OK)` -/
def SUCCEEDED (result : Nat) : Bool := result == S_OK

/-- Header line `#define FAILED(result) ((result) != S_OK)` -/
def FAILED (result : Nat) : Bool := result != S_OK

/-- The three error codes of the header, as an enumeration used to index subsets of them. -/
inductive ErrorCode where
  | endOfFile
  | invalidParameter
  | insufficientBuffer
  deriving DecidableEq

/-- The header value of an error code. -/
def ErrorCode.value : ErrorCode → Nat
  | .endOfFile => STRSAFE_E_END_OF_FILE
  | .invalidParameter => STRSAFE_E_INVALID_PARAMETER
  | .insufficientBuffer => STRSAFE_E_INSUFFICIENT_BUFFER

/-- The position of the single bit of an error code. -/
def ErrorCode.bitIndex : ErrorCode → Nat
  | .endOfFile => 0
  | .invalidParameter => 1
  | .insufficientBuffer => 2

/-- The bitwise OR of a collection of error codes, starting from `S_OK`. -/
def orErrors (s : List ErrorCode) : Nat :=
  s.foldl (fun w e => w ||| e.value) S_OK

/-- The five flags of the header, as an enumeration used to index subsets of them. -/
inductive Flag where
  | ignoreNulls
  | fillBehindNull
  | fillOnFailure
  | nullOnFailure
  | noTruncation
  deriving DecidableEq

/-- The header value of a flag. -/
def Flag.value : Flag → Nat
  | .ignoreNulls => STRSAFE_IGNORE_NULLS
  | .fillBehindNull => STRSAFE_FILL_BEHIND_NULL
  | .fillOnFailure => STRSAFE_FILL_ON_FAILURE
  | .nullOnFailure => STRSAFE_NULL_ON_FAILURE
  | .noTruncation => STRSAFE_NO_TRUNCATION

/-- The position of the single bit of a flag. -/
def Flag.bitIndex : Flag → Nat
  | .ignoreNulls => 8
  | .fillBehindNull => 9
  | .fillOnFailure => 10
  | .nullOnFailure => 11
  | .noTruncation => 12

/-- The `dwFlags` word a caller builds: the fill byte OR-ed with the chosen flags,
`fill | f1 | f2 | ...`. -/
def flagWord (fill : Nat) (s : List Flag) : Nat :=
  s.foldl (fun w f => w ||| f.value) fill

/-! ## `strsafe_printf.c`: the Printf dispatch surface

Pointers are addresses (natural numbers). A format is the bounded view of its code units.
The state of the machine (the memory the callee may read and write, out-cells included)
is an arbitrary type `σ`; a C function is a state transformer returning its `HRESULT`. -/

/-- One argument of a variadic tail. -/
inductive Arg where
  | int (v : Int)
  | str (s : List Nat)
  | chr (c : Nat)
  deriving DecidableEq

/-- A started argument list (`va_list`): the arguments not yet consumed. -/
structure VaList where
  pending : List Arg
  deriving DecidableEq

/-- Models `va_start(argList, pszFormat)`: the list starts at the first argument after the format. -/
def va_start (tail : List Arg) : VaList := ⟨tail⟩

/-- Models `va_end(argList)`: releases the list; it has no effect on the machine state. -/
def va_end (_argList : VaList) : Unit := ()

/-- The four `VPrintf` entry points declared in `strsafe.h` and called by
`strsafe_printf.c`. Their bodies are not part of `strsafe_printf.c`; the wrappers are
parametric in them. Arguments: `pszDest`, capacity, `pszFormat`, `argList`. -/
structure VPrintfFamily (σ : Type) where
  StringCchVPrintfA : Nat → Nat → List Nat → VaList → σ → Nat × σ
  StringCchVPrintfW : Nat → Nat → List Nat → VaList → σ → Nat × σ
  StringCbVPrintfA : Nat → Nat → List Nat → VaList → σ → Nat × σ
  StringCbVPrintfW : Nat → Nat → List Nat → VaList → σ → Nat × σ

/-- The four `VPrintfEx` entry points declared in `strsafe.h` and called by
`strsafe_printf.c`. Arguments: `pszDest`, capacity, `ppszDestEnd`, remaining out-pointer,
`dwFlags`, `pszFormat`, `argList`. -/
structure VPrintfExFamily (σ : Type) where
  StringCchVPrintfExA : Nat → Nat → Nat → Nat → Nat → List Nat → VaList → σ → Nat × σ
  StringCchVPrintfExW : Nat → Nat → Nat → Nat → Nat → List Nat → VaList → σ → Nat × σ
  StringCbVPrintfExA : Nat → Nat → Nat → Nat → Nat → List Nat → VaList → σ → Nat × σ
  StringCbVPrintfExW : Nat → Nat → Nat → Nat → Nat → List Nat → VaList → σ → Nat × σ

/-- Source function at `strsafe_printf.c:20`: start the argument list, call the
VPrintf entry point of the same stem and width, end the list, return the result. -/
def StringCchPrintfA {σ : Type} (lib : VPrintfFamily σ) (pszDest cchDest : Nat)
    (pszFormat : List Nat) (tail : List Arg) (s : σ) : Nat × σ :=
  let argList := va_start tail
  let (result, s1) := lib.StringCchVPrintfA pszDest cchDest pszFormat argList s
  let _ := va_end argList
  (result, s1)

/-- Source function at `strsafe_printf.c:35`: start the argument list, call the
VPrintf entry point of the same stem and width, end the list, return the result. -/
def StringCchPrintfW {σ : Type} (lib : VPrintfFamily σ) (pszDest cchDest : Nat)
    (pszFormat : List Nat) (tail : List Arg) (s : σ) : Nat × σ :=
  let argList := va_start tail
  let (result, s1) := lib.StringCchVPrintfW pszDest cchDest pszFormat argList s
  let _ := va_end argList
  (result, s1)

/-- Source function at `strsafe_printf.c:50`: start the argument list, call the
VPrintf entry point of the same stem and width, end the list, return the result. -/
def StringCchPrintfExA {σ : Type} (lib : VPrintfExFamily σ) (pszDest cchDest : Nat)
    (ppszDestEnd pcchRemaining dwFlags : Nat) (pszFormat : List Nat) (tail : List Arg)
    (s : σ) : Nat × σ :=
  let argList := va_start tail
  let (result, s1) := lib.StringCchVPrintfExA pszDest cchDest ppszDestEnd
    pcchRemaining dwFlags pszFormat argList s
  let _ := va_end argList
  (result, s1)

/-- Source function at `strsafe_printf.c:70`: start the argument list, call the
VPrintf entry point of the same stem and width, end the list, return the result. -/
def StringCchPrintfExW {σ : Type} (lib : VPrintfExFamily σ) (pszDest cchDest : Nat)
    (ppszDestEnd pcchRemaining dwFlags : Nat) (pszFormat : List Nat) (tail : List Arg)
    (s : σ) : Nat × σ :=
  let argList := va_start tail
  let (result, s1) := lib.StringCchVPrintfExW pszDest cchDest ppszDestEnd
    pcchRemaining dwFlags pszFormat argList s
  let _ := va_end argList
  (result, s1)

/-- Source function at `strsafe_printf.c:89`: start the argument list, call the
VPrintf entry point of the same stem and width, end the list, return the result. -/
def StringCbPrintfA {σ : Type} (lib : VPrintfFamily σ) (pszDest cbDest : Nat)
    (pszFormat : List Nat) (tail : List Arg) (s : σ) : Nat × σ :=
  let argList := va_start tail
  let (result, s1) := lib.StringCbVPrintfA pszDest cbDest pszFormat argList s
  let _ := va_end argList
  (result, s1)

/-- Source function at `strsafe_printf.c:104`: start the argument list, call the
VPrintf entry point of the same stem and width, end the list, return the result. -/
def StringCbPrintfW {σ : Type} (lib : VPrintfFamily σ) (pszDest cbDest : Nat)
    (pszFormat : List Nat) (tail : List Arg) (s : σ) : Nat × σ :=
  let argList := va_start tail
  let (result, s1) := lib.StringCbVPrintfW pszDest cbDest pszFormat argList s
  let _ := va_end argList
  (result, s1)

/-- Source function at `strsafe_printf.c:119`: start the argument list, call the
VPrintf entry point of the same stem and width, end the list, return the result. -/
def StringCbPrintfExA {σ : Type} (lib : VPrintfExFamily σ) (pszDest cbDest : Nat)
    (ppszDestEnd pcbRemaining dwFlags : Nat) (pszFormat : List Nat) (tail : List Arg)
    (s : σ) : Nat × σ :=
  let argList := va_start tail
  let (result, s1) := lib.StringCbVPrintfExA pszDest cbDest ppszDestEnd
    pcbRemaining dwFlags pszFormat argList s
  let _ := va_end argList
  (result, s1)

/-- Source function at `strsafe_printf.c:138`: start the argument list, call the
VPrintf entry point of the same stem and width, end the list, return the result. -/
def StringCbPrintfExW {σ : Type} (lib : VPrintfExFamily σ) (pszDest cbDest : Nat)
    (ppszDestEnd pcbRemaining dwFlags : Nat) (pszFormat : List Nat) (tail : List Arg)
    (s : σ) : Nat × σ :=
  let argList := va_start tail
  let (result, s1) := lib.StringCbVPrintfExW pszDest cbDest ppszDestEnd
    pcbRemaining dwFlags pszFormat argList s
  let _ := va_end argList
  (result, s1)

/-! ## Memory -/

/-- Memory of code units, addressed in code units of the width of the call. -/
abbrev Heap := Nat → Nat

/-- Store `v` at address `a`. -/
def Heap.write (m : Heap) (a v : Nat) : Heap :=
  fun x => if x = a then v else m x

/-- Store the code units `vs` at consecutive addresses starting at `a`. -/
def Heap.writeList (m : Heap) (a : Nat) : List Nat → Heap
  | [] => m
  | v :: vs => Heap.writeList (m.write a v) (a + 1) vs

/-- The `n` code units stored from address `a` on. -/
def Heap.readList (m : Heap) (a n : Nat) : List Nat :=
  (List.range n).map (fun i => m (a + i))

/-! ## The operations behind the dispatch surface

`strsafe.h` declares them; their bodies are in source files that are not part of this
development, so they are modelled from the design document (sections 4.1 to 4.4). -/

/-- Modelled from the spec: the triple `(result, new_cursor, remaining)` that the
copy/append engine (section 4.3) and the format adapter (section 4.4) produce. -/
structure Outcome where
  result : Nat
  newCursor : Nat
  remaining : Nat
  deriving DecidableEq

/-- Modelled from the spec: capacity normalization (section 4.1) of a byte capacity,
"integer division by `sizeof(code unit)`", the remainder discarded. -/
def normalizeCapacity (unitSize cb : Nat) : Nat := cb / unitSize

/-- Modelled from the spec: the capacity check of sections 4.1 and 4.3,
"if `cch == 0` or `cch > MAX_CCH`, the call fails". -/
def capacityInvalid (cch : Nat) : Bool := cch == 0 || decide (cch > STRSAFE_MAX_CCH)

/-- Modelled from the spec: the host formatted-print service consumed by section 4.4.
`render` is the complete formatted output, or `none` for a host-service error such as
a malformed format. The two booleans are the conventions the section leaves to the
host: whether truncation is signalled by a negative count rather than by the length,
and whether the host itself terminates a truncated output. -/
structure Host where
  render : List Nat → List Arg → Option (List Nat)
  overflowNegative : Bool
  overflowTerminates : Bool

/-- Modelled from the spec: what one call of the host service returns (section 4.4), a
signed count or a host-service error. -/
inductive HostReturn where
  | count (n : Int)
  | error
  deriving DecidableEq

/-- Modelled from the spec: one call of the host service with the hard write limit `cap`
(section 4.4). If the output and its terminator fit, all of it is written and its
length returned; otherwise at most `cap` code units are written, of which the first
`cap - 1` are payload, and the count is `>= cap` or negative. An error writes nothing. -/
def Host.print (h : Host) (m : Heap) (dest cap : Nat) (fmt : List Nat) (args : VaList) :
    HostReturn × Heap :=
  match h.render fmt args.pending with
  | none => (.error, m)
  | some out =>
    if out.length < cap then
      (.count out.length, m.writeList dest (out ++ [0]))
    else
      (.count (if h.overflowNegative then -1 else out.length),
       m.writeList dest
        (if h.overflowTerminates then (out.take (cap - 1) ++ [0]).take cap else out.take cap))

/-- Modelled from the spec: the format engine adapter (section 4.4). A count `>= 0` and
`< cap` is success with that length; a count `>= cap` or negative is truncation, and
the adapter overwrites slot `cap - 1` with a terminator; a host error is
`INVALID_PARAMETER`. -/
def formatAdapter (h : Host) (m : Heap) (dest cap : Nat) (fmt : List Nat) (args : VaList) :
    Outcome × Heap :=
  match h.print m dest cap fmt args with
  | (.error, m1) => (⟨STRSAFE_E_INVALID_PARAMETER, 0, 0⟩, m1)
  | (.count n, m1) =>
    if 0 ≤ n ∧ n < (cap : Int) then
      (⟨S_OK, n.toNat, cap - n.toNat⟩, m1)
    else
      (⟨STRSAFE_E_INSUFFICIENT_BUFFER, cap - 1, 1⟩, m1.write (dest + (cap - 1)) 0)

/-- Modelled from the spec: a plain VPrintf operation on a capacity already in code
units: the capacity check (section 4.1), then the format adapter (section 4.4). -/
def vprintfCore (h : Host) (pszDest cch : Nat) (pszFormat : List Nat) (argList : VaList)
    (m : Heap) : Nat × Heap :=
  if capacityInvalid cch then (STRSAFE_E_INVALID_PARAMETER, m)
  else
    let (o, m1) := formatAdapter h m pszDest cch pszFormat argList
    (o.result, m1)

/-- Modelled from the spec: `StringCchVPrintfA`, declared at `strsafe.h:440`; narrow,
capacity in code units. -/
def StringCchVPrintfA (h : Host) (pszDest cchDest : Nat) (pszFormat : List Nat)
    (argList : VaList) (m : Heap) : Nat × Heap :=
  vprintfCore h pszDest cchDest pszFormat argList m

/-- Modelled from the spec: `StringCchVPrintfW`, declared at `strsafe.h:446`; wide,
capacity in code units. -/
def StringCchVPrintfW (h : Host) (pszDest cchDest : Nat) (pszFormat : List Nat)
    (argList : VaList) (m : Heap) : Nat × Heap :=
  vprintfCore h pszDest cchDest pszFormat argList m

/-- Modelled from the spec: `StringCbVPrintfA`, declared at `strsafe.h:821`; narrow,
capacity in bytes, normalized by `sizeof(char) = 1`. -/
def StringCbVPrintfA (h : Host) (pszDest cbDest : Nat) (pszFormat : List Nat)
    (argList : VaList) (m : Heap) : Nat × Heap :=
  vprintfCore h pszDest (normalizeCapacity 1 cbDest) pszFormat argList m

/-- Modelled from the spec: `StringCbVPrintfW`, declared at `strsafe.h:827`; wide,
capacity in bytes, normalized by `sizeof(wchar_t)`, a parameter of the platform. -/
def StringCbVPrintfW (wcharSize : Nat) (h : Host) (pszDest cbDest : Nat)
    (pszFormat : List Nat) (argList : VaList) (m : Heap) : Nat × Heap :=
  vprintfCore h pszDest (normalizeCapacity wcharSize cbDest) pszFormat argList m

/-- Modelled from the spec: the four plain VPrintf entry points as the callees of
`strsafe_printf.c`, over `Heap`; `hostA` serves the narrow entry points and `hostW` the
wide ones. -/
def vprintfFamily (hostA hostW : Host) (wcharSize : Nat) : VPrintfFamily Heap where
  StringCchVPrintfA := StringCchVPrintfA hostA
  StringCchVPrintfW := StringCchVPrintfW hostW
  StringCbVPrintfA := StringCbVPrintfA hostA
  StringCbVPrintfW := StringCbVPrintfW wcharSize hostW

/-- Modelled from the spec: the length probe (section 4.2), a scan of at most `fuel`
code units from index `i` for the first zero. -/
def scanZero (m : Heap) (base : Nat) : Nat → Nat → Option Nat
  | 0, _ => none
  | fuel + 1, i => if m (base + i) = 0 then some i else scanZero m base fuel (i + 1)

/-- Modelled from the spec: the main loop of the copy/append engine (section 4.3),
started with `k` code units copied and `fuel` slots of room left. It stops at
`max_append` code units copied, at a zero code unit of the source (not copied), or
when the room is used up. Returns the number of code units copied. -/
def copyLoop (src : Nat → Nat) (maxAppend : Option Nat) (base : Nat) :
    Nat → Nat → Heap → Nat × Heap
  | 0, k, m => (k, m)
  | fuel + 1, k, m =>
    if maxAppend = some k then (k, m)
    else if src k = 0 then (k, m)
    else copyLoop src maxAppend base fuel (k + 1) (m.write (base + k) (src k))

/-- Modelled from the spec: the copy/append engine (section 4.3). `append` selects the
cursor positioning of step 2; a pure copy starts at `c0 = 0`. -/
def copyAppendEngine (m : Heap) (dest cap : Nat) (append : Bool) (src : Nat → Nat)
    (maxAppend : Option Nat) : Outcome × Heap :=
  if capacityInvalid cap then (⟨STRSAFE_E_INVALID_PARAMETER, 0, 0⟩, m)
  else
    match (if append then scanZero m dest cap 0 else some 0) with
    | none => (⟨STRSAFE_E_INVALID_PARAMETER, 0, 0⟩, m)
    | some c0 =>
      let room := cap - c0 - 1
      let (k, m1) := copyLoop src maxAppend (dest + c0) room 0 m
      let moreToOffer := (maxAppend != some k) && (src k != 0)
      let truncated := (k == room) && moreToOffer
      let m2 := m1.write (dest + c0 + k) 0
      (⟨if truncated then STRSAFE_E_INSUFFICIENT_BUFFER else S_OK, c0 + k, cap - (c0 + k)⟩, m2)

/-- Modelled from the spec: `StringCchCopyA`, declared at `strsafe.h:276`; a pure copy
of the terminated source `pszSrc` with capacity in code units. -/
def StringCchCopyA (pszDest cchDest : Nat) (pszSrc : Nat → Nat) (m : Heap) : Nat × Heap :=
  let (o, m1) := copyAppendEngine m pszDest cchDest false pszSrc none
  (o.result, m1)

/-- Modelled from the spec: `StringCchCopyW`, declared at `strsafe.h:281`; the wide form
of the same operation. -/
def StringCchCopyW (pszDest cchDest : Nat) (pszSrc : Nat → Nat) (m : Heap) : Nat × Heap :=
  let (o, m1) := copyAppendEngine m pszDest cchDest false pszSrc none
  (o.result, m1)

/-- The macro `StringCchCopy` of `strsafe.h:271`: `StringCchCopyW` under `UNICODE`,
`StringCchCopyA` otherwise. -/
def StringCchCopy (unicode : Bool) (pszDest cchDest : Nat) (pszSrc : Nat → Nat) (m : Heap) :
    Nat × Heap :=
  if unicode then StringCchCopyW pszDest cchDest pszSrc m
  else StringCchCopyA pszDest cchDest pszSrc m

/-- The state a truncating call leaves: the result is `STRSAFE_E_INSUFFICIENT_BUFFER`, the
destination holds the first `cap - 1` code units of the intended output `out`, and slot
`cap - 1` holds the terminator. -/
def TruncatedTo (out : List Nat) (dest cap : Nat) (r : Nat × Heap) : Prop :=
  r.1 = STRSAFE_E_INSUFFICIENT_BUFFER ∧
  r.2.readList dest (cap - 1) = out.take (cap - 1) ∧
  r.2 (dest + (cap - 1)) = 0

/-- The state a successful formatting call leaves, for the output `out` of the host and
the `new_cursor` reported by the adapter: `new_cursor` is the length of the output, it
is below `cap`, and the destination has a zero code unit at index `new_cursor`. -/
def TerminatedAt (out : List Nat) (dest cap newCursor : Nat) (r : Nat × Heap) : Prop :=
  newCursor = out.length ∧ newCursor < cap ∧ r.2 (dest + newCursor) = 0

/-! ## A concrete host, for evaluating the scenarios of the design document -/

/-- Decimal digits of `n` as code units, most significant first, in front of `acc`. -/
def decDigits : Nat → Nat → List Nat → List Nat
  | 0, _, acc => acc
  | fuel + 1, n, acc =>
    if n < 10 then (48 + n) :: acc
    else decDigits fuel (n / 10) ((48 + n % 10) :: acc)

/-- The text of `%d` for the integer `v`. -/
def renderInt (v : Int) : List Nat :=
  if v < 0 then 45 :: decDigits (v.natAbs + 1) v.natAbs []
  else decDigits (v.natAbs + 1) v.natAbs []

/-- A small renderer: `%d`, `%s`, `%c`, `%%` and literal code units; anything else after
a `%`, or an argument of the wrong kind, is an error. -/
def sampleRender : List Nat → List Arg → Option (List Nat)
  | [], _ => some []
  | c :: rest, args =>
    if c = 37 then
      match rest, args with
      | 37 :: rest1, args1 => (sampleRender rest1 args1).map (fun t => 37 :: t)
      | 100 :: rest1, Arg.int v :: args1 =>
        (sampleRender rest1 args1).map (fun t => renderInt v ++ t)
      | 115 :: rest1, Arg.str s :: args1 =>
        (sampleRender rest1 args1).map (fun t => s ++ t)
      | 99 :: rest1, Arg.chr x :: args1 =>
        (sampleRender rest1 args1).map (fun t => x :: t)
      | _, _ => none
    else (sampleRender rest args).map (fun t => c :: t)

/-- A host in the style of C99 `vsnprintf`: the would-be length is returned on
truncation and the truncated output is terminated. -/
def sampleHost : Host := ⟨sampleRender, false, true⟩

/-- A host in the style of `vswprintf`: truncation is signalled by a negative count
and the truncated output is not terminated by the host. -/
def sampleHostNegative : Host := ⟨sampleRender, true, false⟩

/-- A heap of garbage: every code unit is `0xAA`. -/
def garbage : Heap := fun _ => 0xAA

/-! ## Probes for the capacity a wrapper hands to its callee -/

/-- A plain VPrintf family that records the capacity it is handed: each callee returns
`S_OK` and leaves, as the machine state, the capacity value it received. -/
def capacityProbe : VPrintfFamily Nat where
  StringCchVPrintfA := fun _ cap _ _ _ => (S_OK, cap)
  StringCchVPrintfW := fun _ cap _ _ _ => (S_OK, cap)
  StringCbVPrintfA := fun _ cap _ _ _ => (S_OK, cap)
  StringCbVPrintfW := fun _ cap _ _ _ => (S_OK, cap)

/-- An extended VPrintf family that records the capacity it is handed, as
`capacityProbe` does. -/
def capacityProbeEx : VPrintfExFamily Nat where
  StringCchVPrintfExA := fun _ cap _ _ _ _ _ _ => (S_OK, cap)
  StringCchVPrintfExW := fun _ cap _ _ _ _ _ _ => (S_OK, cap)
  StringCbVPrintfExA := fun _ cap _ _ _ _ _ _ => (S_OK, cap)
  StringCbVPrintfExW := fun _ cap _ _ _ _ _ _ => (S_OK, cap)

/-- Whether an integer is a value of a signed 32-bit integer. -/
def fitsInt32 (x : Int) : Bool := decide (-(2 ^ 31) ≤ x ∧ x < 2 ^ 31)

/-! ## Bit-level lemmas -/

theorem testBit_foldl_lor {α : Type} (val : α → Nat) (l : List α) (init i : Nat) :
    (l.foldl (fun w x => w ||| val x) init).testBit i
      = (init.testBit i || l.any (fun x => (val x).testBit i)) := by
  induction l generalizing init with
  | nil => simp
  | cons x xs ih =>
    simp only [List.foldl_cons, List.any_cons]
    rw [ih, Nat.testBit_lor, Bool.or_assoc]

theorem and_two_pow_ne_zero_iff (w k : Nat) : w &&& 2 ^ k ≠ 0 ↔ w.testBit k = true := by
  rw [Nat.and_two_pow]
  cases h : w.testBit k
  · simp
  · simp

theorem flag_value_eq_two_pow (f : Flag) : f.value = 2 ^ f.bitIndex := by
  cases f <;> rfl

theorem flag_bitIndex_injective (f g : Flag) (h : f.bitIndex = g.bitIndex) : f = g := by
  cases f <;> cases g <;> first | rfl | (exact absurd h (by decide))

theorem flag_bitIndex_ge (f : Flag) : 8 ≤ f.bitIndex := by
  cases f <;> decide

theorem errorCode_value_eq_two_pow (e : ErrorCode) : e.value = 2 ^ e.bitIndex := by
  cases e <;> rfl

theorem errorCode_bitIndex_injective (e g : ErrorCode) (h : e.bitIndex = g.bitIndex) :
    e = g := by
  cases e <;> cases g <;> first | rfl | (exact absurd h (by decide))

theorem testBit_flagWord (fill : Nat) (s : List Flag) (i : Nat) :
    (flagWord fill s).testBit i = (fill.testBit i || s.any (fun f => decide (f.bitIndex = i))) := by
  unfold flagWord
  rw [testBit_foldl_lor]
  congr 2
  funext f
  rw [flag_value_eq_two_pow, Nat.testBit_two_pow]

theorem testBit_orErrors (s : List ErrorCode) (i : Nat) :
    (orErrors s).testBit i = s.any (fun e => decide (e.bitIndex = i)) := by
  unfold orErrors
  rw [testBit_foldl_lor]
  have h0 : S_OK.testBit i = false := by
    show (0 : Nat).testBit i = false
    simp
  rw [h0, Bool.false_or]
  congr 1
  funext e
  rw [errorCode_value_eq_two_pow, Nat.testBit_two_pow]

/-! ## Result codes, predicates and flags -/

/-- C6: the result codes have the 32-bit values `S_OK = 0x00000000`,
`STRSAFE_E_END_OF_FILE = 0x00000001`, `STRSAFE_E_INVALID_PARAMETER = 0x00000002` and
`STRSAFE_E_INSUFFICIENT_BUFFER = 0x00000004`, each of them below `2 ^ 32`. -/
theorem result_code_values :
    S_OK = 0x00000000 ∧ STRSAFE_E_END_OF_FILE = 0x00000001 ∧
    STRSAFE_E_INVALID_PARAMETER = 0x00000002 ∧ STRSAFE_E_INSUFFICIENT_BUFFER = 0x00000004 ∧
    S_OK < 2 ^ 32 ∧ STRSAFE_E_END_OF_FILE < 2 ^ 32 ∧
    STRSAFE_E_INVALID_PARAMETER < 2 ^ 32 ∧ STRSAFE_E_INSUFFICIENT_BUFFER < 2 ^ 32 := by
  decide

/-- C7: for every result value `r` (in particular every 32-bit one), `SUCCEEDED(r)` holds
exactly when `r == S_OK` and `FAILED(r)` exactly when `r != S_OK`, so exactly one of
the two holds; the three error codes are `FAILED` and `S_OK` is `SUCCEEDED`. -/
theorem succeeded_failed_partition :
    (∀ r : Nat, (SUCCEEDED r = true ↔ r = S_OK) ∧ (FAILED r = true ↔ r ≠ S_OK) ∧
      ((SUCCEEDED r = true ∧ FAILED r = false) ∨ (SUCCEEDED r = false ∧ FAILED r = true))) ∧
    FAILED STRSAFE_E_END_OF_FILE = true ∧ FAILED STRSAFE_E_INVALID_PARAMETER = true ∧
    FAILED STRSAFE_E_INSUFFICIENT_BUFFER = true ∧ SUCCEEDED S_OK = true ∧
    SUCCEEDED STRSAFE_E_END_OF_FILE = false ∧ SUCCEEDED STRSAFE_E_INVALID_PARAMETER = false ∧
    SUCCEEDED STRSAFE_E_INSUFFICIENT_BUFFER = false ∧ FAILED S_OK = false := by
  refine ⟨fun r => ?_, by decide, by decide, by decide, by decide, by decide, by decide,
    by decide, by decide⟩
  by_cases h : r = S_OK
  · simp [SUCCEEDED, FAILED, h]
  · simp [SUCCEEDED, FAILED, h]

/-- C8: the flag bits have the values `STRSAFE_IGNORE_NULLS = 0x00000100`,
`STRSAFE_FILL_BEHIND_NULL = 0x00000200`, `STRSAFE_FILL_ON_FAILURE = 0x00000400`,
`STRSAFE_NULL_ON_FAILURE = 0x00000800` and `STRSAFE_NO_TRUNCATION = 0x00001000`. -/
theorem flag_values :
    STRSAFE_IGNORE_NULLS = 0x00000100 ∧ STRSAFE_FILL_BEHIND_NULL = 0x00000200 ∧
    STRSAFE_FILL_ON_FAILURE = 0x00000400 ∧ STRSAFE_NULL_ON_FAILURE = 0x00000800 ∧
    STRSAFE_NO_TRUNCATION = 0x00001000 := by
  decide

/-- C9: for every collection `s` of the five flags and every fill byte `fill < 256`, the
word `w = fill | flags of s` satisfies `(w & 0xFF) == fill`, and for each flag `f`,
`(w & f) != 0` exactly when `f` is in `s`; every flag is a single bit at position 8 or
above, so `f & 0xFF == 0`, and two distinct flags have no bit in common. -/
theorem flagWord_recovers (fill : Nat) (s : List Flag) (hfill : fill < 256) :
    flagWord fill s &&& 0xFF = fill ∧
    (∀ f : Flag, flagWord fill s &&& f.value ≠ 0 ↔ f ∈ s) ∧
    (∀ f : Flag, f.value &&& 0xFF = 0 ∧ ∃ k, f.value = 2 ^ k) ∧
    (∀ f g : Flag, f ≠ g → f.value &&& g.value = 0) := by
  refine ⟨?_, ?_, ?_, ?_⟩
  · apply Nat.eq_of_testBit_eq
    intro i
    rw [Nat.testBit_and, testBit_flagWord]
    have h255 : (0xFF : Nat).testBit i = decide (i < 8) := Nat.testBit_two_pow_sub_one 8 i
    rw [h255]
    by_cases hi : i < 8
    · have hany : s.any (fun f => decide (f.bitIndex = i)) = false := by
        rw [List.any_eq_false]
        intro f _
        have := flag_bitIndex_ge f
        simp
        omega
      simp [hany, hi]
    · have hlt : fill < 2 ^ i :=
        lt_of_lt_of_le hfill (by
          have : (2 : Nat) ^ 8 ≤ 2 ^ i := Nat.pow_le_pow_right (by decide) (by omega)
          simpa using this)
      simp [hi, Nat.testBit_lt_two_pow hlt]
  · intro f
    rw [flag_value_eq_two_pow, and_two_pow_ne_zero_iff, testBit_flagWord]
    have hlt : fill < 2 ^ f.bitIndex :=
      lt_of_lt_of_le hfill (by
        have : (2 : Nat) ^ 8 ≤ 2 ^ f.bitIndex :=
          Nat.pow_le_pow_right (by decide) (flag_bitIndex_ge f)
        simpa using this)
    rw [Nat.testBit_lt_two_pow hlt, Bool.false_or, List.any_eq_true]
    constructor
    · rintro ⟨g, hg, hk⟩
      have : g = f := flag_bitIndex_injective g f (by simpa using hk)
      exact this ▸ hg
    · intro hf
      exact ⟨f, hf, by simp⟩
  · intro f
    refine ⟨?_, f.bitIndex, flag_value_eq_two_pow f⟩
    cases f <;> decide
  · intro f g hfg
    cases f <;> cases g <;> first | (exact absurd rfl hfg) | decide

/-- Witness for C9 at the word `0xCC | FILL_ON_FAILURE | NULL_ON_FAILURE`. -/
theorem flagWord_recovers_witness :
    (0xCC : Nat) < 256 ∧
    flagWord 0xCC [Flag.fillOnFailure, Flag.nullOnFailure] = 0xCCC ∧
    flagWord 0xCC [Flag.fillOnFailure, Flag.nullOnFailure] &&& 0xFF = 0xCC ∧
    (∀ f : Flag, flagWord 0xCC [Flag.fillOnFailure, Flag.nullOnFailure] &&& f.value ≠ 0 ↔
      f ∈ [Flag.fillOnFailure, Flag.nullOnFailure]) :=
  ⟨by decide, by decide,
    (flagWord_recovers 0xCC [Flag.fillOnFailure, Flag.nullOnFailure] (by decide)).1,
    (flagWord_recovers 0xCC [Flag.fillOnFailure, Flag.nullOnFailure] (by decide)).2.1⟩

/-- C10: the three error codes are pairwise disjoint single bits: each is a power of
two, the AND of two distinct codes is 0, and the OR of any collection of them has a
code's bit set exactly when that code is in the collection. -/
theorem error_codes_disjoint_bits :
    (∀ e : ErrorCode, ∃ k, e.value = 2 ^ k) ∧
    (∀ e g : ErrorCode, e ≠ g → e.value &&& g.value = 0) ∧
    (∀ (s : List ErrorCode) (e : ErrorCode), orErrors s &&& e.value ≠ 0 ↔ e ∈ s) := by
  refine ⟨fun e => ⟨e.bitIndex, errorCode_value_eq_two_pow e⟩, ?_, ?_⟩
  · intro e g heg
    cases e <;> cases g <;> first | (exact absurd rfl heg) | decide
  · intro s e
    rw [errorCode_value_eq_two_pow, and_two_pow_ne_zero_iff, testBit_orErrors,
      List.any_eq_true]
    constructor
    · rintro ⟨g, hg, hk⟩
      have : g = e := errorCode_bitIndex_injective g e (by simpa using hk)
      exact this ▸ hg
    · intro he
      exact ⟨e, he, by simp⟩

/-! ## The Printf wrappers route to the VPrintf entry points -/

/-- C1: each of the four plain Printf entry points returns exactly the `HRESULT`, and
leaves exactly the machine state (the destination included), of the VPrintf entry
point of the same capacity stem and character width, called with the same destination,
the same capacity value, the same format and the argument list started from the tail. -/
theorem printf_routes_to_vprintf {σ : Type} (lib : VPrintfFamily σ) (pszDest cap : Nat)
    (pszFormat : List Nat) (tail : List Arg) (s : σ) :
    StringCchPrintfA lib pszDest cap pszFormat tail s
      = lib.StringCchVPrintfA pszDest cap pszFormat (va_start tail) s ∧
    StringCchPrintfW lib pszDest cap pszFormat tail s
      = lib.StringCchVPrintfW pszDest cap pszFormat (va_start tail) s ∧
    StringCbPrintfA lib pszDest cap pszFormat tail s
      = lib.StringCbVPrintfA pszDest cap pszFormat (va_start tail) s ∧
    StringCbPrintfW lib pszDest cap pszFormat tail s
      = lib.StringCbVPrintfW pszDest cap pszFormat (va_start tail) s :=
  ⟨rfl, rfl, rfl, rfl⟩

theorem Heap.write_same (m : Heap) (a v : Nat) : m.write a v a = v := by
  simp [Heap.write]

theorem Heap.write_other (m : Heap) (a v x : Nat) (h : x ≠ a) : m.write a v x = m x := by
  simp [Heap.write, h]

theorem Heap.writeList_below (l : List Nat) (m : Heap) (a x : Nat) (h : x < a) :
    m.writeList a l x = m x := by
  induction l generalizing m a with
  | nil => rfl
  | cons v vs ih =>
    show Heap.writeList (m.write a v) (a + 1) vs x = m x
    rw [ih _ _ (by omega), Heap.write_other _ _ _ _ (by omega)]

theorem Heap.writeList_at (l : List Nat) (m : Heap) (a i : Nat) (h : i < l.length) :
    m.writeList a l (a + i) = l.getD i 0 := by
  induction l generalizing m a i with
  | nil => simp at h
  | cons v vs ih =>
    show Heap.writeList (m.write a v) (a + 1) vs (a + i) = (v :: vs).getD i 0
    cases i with
    | zero =>
      rw [Heap.writeList_below _ _ _ _ (by omega)]
      simp [Heap.write_same]
    | succ j =>
      simp only [List.length_cons] at h
      have := ih (m.write a v) (a + 1) j (by omega)
      rw [show a + (j + 1) = a + 1 + j by omega, this]
      simp

theorem Heap.readList_eq_take (m : Heap) (a n : Nat) (l : List Nat) (hn : n ≤ l.length)
    (h : ∀ i, i < n → m (a + i) = l.getD i 0) : m.readList a n = l.take n := by
  apply List.ext_getElem
  · simp [Heap.readList, hn]
  · intro i h1 h2
    have hi : i < n := by simpa [Heap.readList] using h1
    have hl : i < l.length := lt_of_lt_of_le hi hn
    simp [Heap.readList, h i hi, List.getElem?_eq_getElem hl]

/-! ## The format adapter -/

theorem capacityInvalid_eq_false (cap : Nat) (h1 : 1 ≤ cap) (h2 : cap ≤ STRSAFE_MAX_CCH) :
    capacityInvalid cap = false := by
  simp only [capacityInvalid, Bool.or_eq_false_iff, beq_eq_false_iff_ne, decide_eq_false_iff_not]
  omega

theorem capacityInvalid_eq_true (cap : Nat) (h : cap = 0 ∨ cap > STRSAFE_MAX_CCH) :
    capacityInvalid cap = true := by
  simp only [capacityInvalid, Bool.or_eq_true, beq_iff_eq, decide_eq_true_eq]
  exact h

theorem vprintfCore_overflow (h : Host) (dest cap : Nat) (fmt : List Nat) (args : VaList)
    (m : Heap) (out : List Nat) (hr : h.render fmt args.pending = some out)
    (h1 : 1 ≤ cap) (h2 : cap ≤ STRSAFE_MAX_CCH) (hlen : cap ≤ out.length) :
    vprintfCore h dest cap fmt args m =
      (STRSAFE_E_INSUFFICIENT_BUFFER,
        (m.writeList dest
          (if h.overflowTerminates then (out.take (cap - 1) ++ [0]).take cap
            else out.take cap)).write (dest + (cap - 1)) 0) := by
  have hv := capacityInvalid_eq_false cap h1 h2
  have hnot : ¬ out.length < cap := by omega
  simp only [vprintfCore, hv, formatAdapter, Host.print, hr, hnot, if_false]
  cases h.overflowNegative
  · simp [hnot]
  · simp

theorem vprintfCore_truncates (h : Host) (dest cap : Nat) (fmt : List Nat) (args : VaList)
    (m : Heap) (out : List Nat) (hr : h.render fmt args.pending = some out)
    (h1 : 1 ≤ cap) (h2 : cap ≤ STRSAFE_MAX_CCH) (hlen : cap ≤ out.length) :
    (vprintfCore h dest cap fmt args m).1 = STRSAFE_E_INSUFFICIENT_BUFFER ∧
    (vprintfCore h dest cap fmt args m).2.readList dest (cap - 1) = out.take (cap - 1) ∧
    (vprintfCore h dest cap fmt args m).2 (dest + (cap - 1)) = 0 := by
  rw [vprintfCore_overflow h dest cap fmt args m out hr h1 h2 hlen]
  refine ⟨rfl, ?_, Heap.write_same _ _ _⟩
  apply Heap.readList_eq_take _ _ _ _ (by omega)
  intro i hi
  show Heap.write _ _ _ (dest + i) = _
  rw [Heap.write_other _ _ _ _ (by omega)]
  cases h.overflowTerminates
  · have hl : i < (out.take cap).length := by
      rw [List.length_take]; omega
    simp only [Bool.false_eq_true, if_false]
    rw [Heap.writeList_at _ _ _ _ hl]
    simp [List.getElem?_take, show i < cap by omega]
  · have hl : i < ((out.take (cap - 1) ++ [0]).take cap).length := by
      simp [List.length_take]; omega
    simp only [if_true]
    rw [Heap.writeList_at _ _ _ _ hl]
    have hl1 : i < (out.take (cap - 1)).length := by
      rw [List.length_take]; omega
    simp [List.getElem?_take, show i < cap by omega, List.getElem?_append_left hl1, hi]

theorem vprintfCore_ok (h : Host) (dest cap : Nat) (fmt : List Nat) (args : VaList)
    (m : Heap) (hok : (vprintfCore h dest cap fmt args m).1 = S_OK) :
    ∃ out, h.render fmt args.pending = some out ∧
      TerminatedAt out dest cap (formatAdapter h m dest cap fmt args).1.newCursor
        (vprintfCore h dest cap fmt args m) := by
  have hinv : STRSAFE_E_INVALID_PARAMETER ≠ S_OK := by decide
  have hins : STRSAFE_E_INSUFFICIENT_BUFFER ≠ S_OK := by decide
  cases hv : capacityInvalid cap
  · cases hr : h.render fmt args.pending with
    | none =>
      simp only [vprintfCore, hv, formatAdapter, Host.print, hr, Bool.false_eq_true,
        if_false] at hok
      exact absurd hok hinv
    | some out =>
      refine ⟨out, rfl, ?_⟩
      by_cases hlt : out.length < cap
      · simp only [vprintfCore, hv, formatAdapter, Host.print, hr, hlt, if_true, TerminatedAt]
        simp only [Nat.cast_nonneg, Nat.cast_lt, hlt, and_self, if_true, Int.toNat_ofNat,
          Bool.false_eq_true, if_false, true_and]
        have := Heap.writeList_at (out ++ [0]) m dest out.length (by simp)
        rw [this]
        simp
      · simp only [vprintfCore, hv, formatAdapter, Host.print, hr, hlt, if_false,
          Bool.false_eq_true] at hok
        cases hneg : h.overflowNegative
        · simp only [hneg, Bool.false_eq_true, if_false, Nat.cast_nonneg, Nat.cast_lt, hlt,
            and_false] at hok
          exact absurd hok hins
        · simp only [hneg, if_true] at hok
          exact absurd hok hins
  · simp only [vprintfCore, hv, if_true] at hok
    exact absurd hok hinv

/-! ## Printf: truncation and termination -/

/-- C3: for every call of a plain Printf entry point whose formatted output `out` has at
least `cap` code units, `1 <= cap <= STRSAFE_MAX_CCH` (`cap` being the capacity in code units: `cchDest`, or
`cbDest` divided by the size of a code unit), the call returns
`STRSAFE_E_INSUFFICIENT_BUFFER`, the destination holds the first `cap - 1` code units
of `out`, and slot `cap - 1` holds the terminator. -/
theorem printf_truncation (hostA hostW : Host) (wcharSize dest cap : Nat) (fmt : List Nat)
    (tail : List Arg) (m : Heap) (out : List Nat)
    (h1 : 1 ≤ cap) (h2 : cap ≤ STRSAFE_MAX_CCH) (hlen : cap ≤ out.length) :
    (hostA.render fmt tail = some out →
      TruncatedTo out dest cap
        (StringCchPrintfA (vprintfFamily hostA hostW wcharSize) dest cap fmt tail m) ∧
      ∀ cb, normalizeCapacity 1 cb = cap →
        TruncatedTo out dest cap
          (StringCbPrintfA (vprintfFamily hostA hostW wcharSize) dest cb fmt tail m)) ∧
    (hostW.render fmt tail = some out →
      TruncatedTo out dest cap
        (StringCchPrintfW (vprintfFamily hostA hostW wcharSize) dest cap fmt tail m) ∧
      ∀ cb, normalizeCapacity wcharSize cb = cap →
        TruncatedTo out dest cap
          (StringCbPrintfW (vprintfFamily hostA hostW wcharSize) dest cb fmt tail m)) := by
  refine ⟨fun hr => ⟨?_, fun cb hcb => ?_⟩, fun hr => ⟨?_, fun cb hcb => ?_⟩⟩
  · exact vprintfCore_truncates hostA dest cap fmt (va_start tail) m out hr h1 h2 hlen
  · subst hcb
    exact vprintfCore_truncates hostA dest _ fmt (va_start tail) m out hr h1 h2 hlen
  · exact vprintfCore_truncates hostW dest cap fmt (va_start tail) m out hr h1 h2 hlen
  · subst hcb
    exact vprintfCore_truncates hostW dest _ fmt (va_start tail) m out hr h1 h2 hlen

/-- Witness for C3, the scenario `Printf(D, 6, "%d", 123456789)`: the result is
`STRSAFE_E_INSUFFICIENT_BUFFER` and `D` holds `"12345"` and a terminator. -/
theorem printf_truncation_witness :
    (1 ≤ 6 ∧ 6 ≤ STRSAFE_MAX_CCH ∧ 6 ≤ [49, 50, 51, 52, 53, 54, 55, 56, 57].length ∧
      sampleHost.render [37, 100] [Arg.int 123456789]
        = some [49, 50, 51, 52, 53, 54, 55, 56, 57]) ∧
    TruncatedTo [49, 50, 51, 52, 53, 54, 55, 56, 57] 100 6
      (StringCchPrintfA (vprintfFamily sampleHost sampleHostNegative 2) 100 6 [37, 100]
        [Arg.int 123456789] garbage) ∧
    (StringCchPrintfA (vprintfFamily sampleHost sampleHostNegative 2) 100 6 [37, 100]
        [Arg.int 123456789] garbage).1 = 0x00000004 ∧
    (StringCchPrintfA (vprintfFamily sampleHost sampleHostNegative 2) 100 6 [37, 100]
        [Arg.int 123456789] garbage).2.readList 100 7 = [49, 50, 51, 52, 53, 0, 0xAA] :=
  ⟨⟨by decide, by decide, by decide, by decide⟩,
    ((printf_truncation sampleHost sampleHostNegative 2 100 6 [37, 100] [Arg.int 123456789]
      garbage [49, 50, 51, 52, 53, 54, 55, 56, 57] (by decide) (by decide) (by decide)).1
      (by decide)).1,
    by decide, by decide⟩

/-- C4: for every call of a plain Printf entry point that returns `S_OK`, the host produced
an output `out`, the `new_cursor` of the adapter is the length of `out`, it is below
the capacity in code units, and the destination has a zero code unit at index
`new_cursor`. -/
theorem printf_ok_terminated (hostA hostW : Host) (wcharSize dest cap : Nat)
    (fmt : List Nat) (tail : List Arg) (m : Heap) :
    ((StringCchPrintfA (vprintfFamily hostA hostW wcharSize) dest cap fmt tail m).1 = S_OK →
      ∃ out, hostA.render fmt tail = some out ∧
        TerminatedAt out dest cap
          (formatAdapter hostA m dest cap fmt (va_start tail)).1.newCursor
          (StringCchPrintfA (vprintfFamily hostA hostW wcharSize) dest cap fmt tail m)) ∧
    ((StringCchPrintfW (vprintfFamily hostA hostW wcharSize) dest cap fmt tail m).1 = S_OK →
      ∃ out, hostW.render fmt tail = some out ∧
        TerminatedAt out dest cap
          (formatAdapter hostW m dest cap fmt (va_start tail)).1.newCursor
          (StringCchPrintfW (vprintfFamily hostA hostW wcharSize) dest cap fmt tail m)) ∧
    ((StringCbPrintfA (vprintfFamily hostA hostW wcharSize) dest cap fmt tail m).1 = S_OK →
      ∃ out, hostA.render fmt tail = some out ∧
        TerminatedAt out dest (normalizeCapacity 1 cap)
          (formatAdapter hostA m dest (normalizeCapacity 1 cap) fmt
            (va_start tail)).1.newCursor
          (StringCbPrintfA (vprintfFamily hostA hostW wcharSize) dest cap fmt tail m)) ∧
    ((StringCbPrintfW (vprintfFamily hostA hostW wcharSize) dest cap fmt tail m).1 = S_OK →
      ∃ out, hostW.render fmt tail = some out ∧
        TerminatedAt out dest (normalizeCapacity wcharSize cap)
          (formatAdapter hostW m dest (normalizeCapacity wcharSize cap) fmt
            (va_start tail)).1.newCursor
          (StringCbPrintfW (vprintfFamily hostA hostW wcharSize) dest cap fmt tail m)) :=
  ⟨fun hok => vprintfCore_ok hostA dest cap fmt (va_start tail) m hok,
    fun hok => vprintfCore_ok hostW dest cap fmt (va_start tail) m hok,
    fun hok => vprintfCore_ok hostA dest (normalizeCapacity 1 cap) fmt (va_start tail) m hok,
    fun hok =>
      vprintfCore_ok hostW dest (normalizeCapacity wcharSize cap) fmt (va_start tail) m hok⟩

/-- Witness for C4, the call `StringCbPrintfW(D, 13, "%d%%", -42)` with two-byte wide
code units: capacity 6, result `S_OK`, `D` holds `"-42%"` and a terminator at index 4. -/
theorem printf_ok_terminated_witness :
    (StringCbPrintfW (vprintfFamily sampleHost sampleHostNegative 2) 100 13 [37, 100, 37, 37]
        [Arg.int (-42)] garbage).1 = S_OK ∧
    (∃ out, sampleHostNegative.render [37, 100, 37, 37] [Arg.int (-42)] = some out ∧
      TerminatedAt out 100 (normalizeCapacity 2 13)
        (formatAdapter sampleHostNegative garbage 100 (normalizeCapacity 2 13)
          [37, 100, 37, 37] (va_start [Arg.int (-42)])).1.newCursor
        (StringCbPrintfW (vprintfFamily sampleHost sampleHostNegative 2) 100 13
          [37, 100, 37, 37] [Arg.int (-42)] garbage)) ∧
    (formatAdapter sampleHostNegative garbage 100 (normalizeCapacity 2 13)
      [37, 100, 37, 37] (va_start [Arg.int (-42)])).1.newCursor = 4 ∧
    (StringCbPrintfW (vprintfFamily sampleHost sampleHostNegative 2) 100 13 [37, 100, 37, 37]
        [Arg.int (-42)] garbage).2.readList 100 6 = [45, 52, 50, 37, 0, 0xAA] :=
  ⟨by decide,
    (printf_ok_terminated sampleHost sampleHostNegative 2 100 13 [37, 100, 37, 37]
      [Arg.int (-42)] garbage).2.2.2 (by decide),
    by decide, by decide⟩

/-! ## The copy engine -/

theorem copyLoop_none (src : Nat → Nat) (base n : Nat) (hz : src n = 0)
    (hnz : ∀ i, i < n → src i ≠ 0) (fuel k : Nat) (m : Heap) (hk : k ≤ n) :
    (copyLoop src none base fuel k m).1 = min (k + fuel) n ∧
    ∀ x, (copyLoop src none base fuel k m).2 x
      = if base + k ≤ x ∧ x < base + min (k + fuel) n then src (x - base) else m x := by
  induction fuel generalizing k m with
  | zero =>
    refine ⟨by simp [copyLoop, hk], fun x => ?_⟩
    have : ¬ (base + k ≤ x ∧ x < base + min (k + 0) n) := by
      rw [Nat.add_zero, Nat.min_eq_left hk]; omega
    rw [if_neg this]
    rfl
  | succ fuel ih =>
    by_cases hs : src k = 0
    · have hkn : k = n := by
        rcases Nat.lt_or_eq_of_le hk with hlt | heq
        · exact absurd hs (hnz k hlt)
        · exact heq
      have hstop : copyLoop src none base (fuel + 1) k m = (k, m) := by
        simp [copyLoop, hs]
      rw [hstop]
      refine ⟨by rw [hkn, Nat.min_eq_right (by omega)], fun x => ?_⟩
      have : ¬ (base + k ≤ x ∧ x < base + min (k + (fuel + 1)) n) := by
        rw [hkn, Nat.min_eq_right (by omega)]; omega
      rw [if_neg this]
    · have hlt : k < n := by
        rcases Nat.lt_or_eq_of_le hk with hlt | heq
        · exact hlt
        · exact absurd (heq ▸ hz) hs
      have hstep : copyLoop src none base (fuel + 1) k m
          = copyLoop src none base fuel (k + 1) (m.write (base + k) (src k)) := by
        simp [copyLoop, hs]
      obtain ⟨ih1, ih2⟩ := ih (k + 1) (m.write (base + k) (src k)) hlt
      rw [hstep]
      have hmin : k + 1 + fuel = k + (fuel + 1) := by omega
      rw [hmin] at ih1 ih2
      refine ⟨ih1, fun x => ?_⟩
      rw [ih2 x]
      by_cases hx : x = base + k
      · have h1 : ¬ (base + (k + 1) ≤ x ∧ x < base + min (k + (fuel + 1)) n) := by omega
        have h2 : base + k ≤ x ∧ x < base + min (k + (fuel + 1)) n := by
          refine ⟨by omega, ?_⟩
          have : k < min (k + (fuel + 1)) n := by
            rw [Nat.lt_min]; omega
          omega
        rw [if_neg h1, if_pos h2, hx, Heap.write_same]
        congr 1
        omega
      · by_cases h1 : base + (k + 1) ≤ x ∧ x < base + min (k + (fuel + 1)) n
        · have h2 : base + k ≤ x ∧ x < base + min (k + (fuel + 1)) n := ⟨by omega, h1.2⟩
          rw [if_pos h1, if_pos h2]
        · have h2 : ¬ (base + k ≤ x ∧ x < base + min (k + (fuel + 1)) n) := by omega
          rw [if_neg h1, if_neg h2, Heap.write_other _ _ _ _ hx]

theorem copyAppendEngine_copy (m : Heap) (dest cap : Nat) (src : Nat → Nat)
    (h1 : 1 ≤ cap) (h2 : cap ≤ STRSAFE_MAX_CCH) :
    copyAppendEngine m dest cap false src none =
      (⟨if ((copyLoop src none dest (cap - 1) 0 m).1 == cap - 1
            && src (copyLoop src none dest (cap - 1) 0 m).1 != 0) then
          STRSAFE_E_INSUFFICIENT_BUFFER else S_OK,
        (copyLoop src none dest (cap - 1) 0 m).1,
        cap - (copyLoop src none dest (cap - 1) 0 m).1⟩,
       (copyLoop src none dest (cap - 1) 0 m).2.write
        (dest + (copyLoop src none dest (cap - 1) 0 m).1) 0) := by
  simp [copyAppendEngine, capacityInvalid_eq_false cap h1 h2]


theorem copy_core_fits (m : Heap) (dest cap n : Nat) (src : Nat → Nat) (hz : src n = 0)
    (hnz : ∀ i, i < n → src i ≠ 0) (h1 : 1 ≤ cap) (h2 : cap ≤ STRSAFE_MAX_CCH)
    (hn : n < cap) :
    (copyAppendEngine m dest cap false src none).1.result = S_OK ∧
    (∀ i, i < n → (copyAppendEngine m dest cap false src none).2 (dest + i) = src i) ∧
    (copyAppendEngine m dest cap false src none).2 (dest + n) = 0 := by
  obtain ⟨hk, hmem⟩ := copyLoop_none src dest n hz hnz (cap - 1) 0 m (Nat.zero_le n)
  have hkn : (copyLoop src none dest (cap - 1) 0 m).1 = n := by
    rw [hk, Nat.zero_add, Nat.min_eq_right (by omega)]
  rw [copyAppendEngine_copy m dest cap src h1 h2, hkn]
  refine ⟨by simp [hz], fun i hi => ?_, Heap.write_same _ _ _⟩
  show Heap.write _ _ _ (dest + i) = _
  rw [Heap.write_other _ _ _ _ (by omega), hmem, Nat.zero_add,
    Nat.min_eq_right (by omega), if_pos ⟨by omega, by omega⟩]
  congr 1
  omega

theorem copy_core_truncates (m : Heap) (dest cap n : Nat) (src : Nat → Nat)
    (hnz : ∀ i, i < n → src i ≠ 0) (hz : src n = 0) (h1 : 1 ≤ cap)
    (h2 : cap ≤ STRSAFE_MAX_CCH) (hn : cap ≤ n) :
    (copyAppendEngine m dest cap false src none).1.result = STRSAFE_E_INSUFFICIENT_BUFFER ∧
    (∀ i, i < cap - 1 → (copyAppendEngine m dest cap false src none).2 (dest + i) = src i) ∧
    (copyAppendEngine m dest cap false src none).2 (dest + (cap - 1)) = 0 := by
  obtain ⟨hk, hmem⟩ := copyLoop_none src dest n hz hnz (cap - 1) 0 m (Nat.zero_le n)
  have hkn : (copyLoop src none dest (cap - 1) 0 m).1 = cap - 1 := by
    rw [hk, Nat.zero_add, Nat.min_eq_left (by omega)]
  rw [copyAppendEngine_copy m dest cap src h1 h2, hkn]
  have hsrc : src (cap - 1) ≠ 0 := hnz _ (by omega)
  refine ⟨by simp [hsrc], fun i hi => ?_, Heap.write_same _ _ _⟩
  show Heap.write _ _ _ (dest + i) = _
  rw [Heap.write_other _ _ _ _ (by omega), hmem, Nat.zero_add,
    Nat.min_eq_left (by omega), if_pos ⟨by omega, by omega⟩]
  congr 1
  omega

theorem copy_core_invalid (m : Heap) (dest cap : Nat) (src : Nat → Nat)
    (h : cap = 0 ∨ cap > STRSAFE_MAX_CCH) :
    copyAppendEngine m dest cap false src none = (⟨STRSAFE_E_INVALID_PARAMETER, 0, 0⟩, m) := by
  simp [copyAppendEngine, capacityInvalid_eq_true cap h]

/-- C5: for a source `S` terminated at index `n` (so `len(S) = n`), `StringCchCopy(D, cap, S)`
with `1 <= cap <= STRSAFE_MAX_CCH` returns `S_OK` and leaves `S` and a terminator in `D`
when `n < cap`, and otherwise returns `STRSAFE_E_INSUFFICIENT_BUFFER` and leaves the
first `cap - 1` code units of `S` and a terminator at index `cap - 1`; it returns
`STRSAFE_E_INVALID_PARAMETER` when `cap` is zero or larger than `STRSAFE_MAX_CCH`. -/
theorem stringCchCopy_contract (unicode : Bool) (dest cap n : Nat) (src : Nat → Nat)
    (m : Heap) (hz : src n = 0) (hnz : ∀ i, i < n → src i ≠ 0) :
    (1 ≤ cap → cap ≤ STRSAFE_MAX_CCH → n < cap →
      (StringCchCopy unicode dest cap src m).1 = S_OK ∧
      (∀ i, i < n → (StringCchCopy unicode dest cap src m).2 (dest + i) = src i) ∧
      (StringCchCopy unicode dest cap src m).2 (dest + n) = 0) ∧
    (1 ≤ cap → cap ≤ STRSAFE_MAX_CCH → cap ≤ n →
      (StringCchCopy unicode dest cap src m).1 = STRSAFE_E_INSUFFICIENT_BUFFER ∧
      (∀ i, i < cap - 1 → (StringCchCopy unicode dest cap src m).2 (dest + i) = src i) ∧
      (StringCchCopy unicode dest cap src m).2 (dest + (cap - 1)) = 0) ∧
    (cap = 0 ∨ cap > STRSAFE_MAX_CCH →
      (StringCchCopy unicode dest cap src m).1 = STRSAFE_E_INVALID_PARAMETER) := by
  have hred : StringCchCopy unicode dest cap src m
      = ((copyAppendEngine m dest cap false src none).1.result,
          (copyAppendEngine m dest cap false src none).2) := by
    cases unicode <;> rfl
  rw [hred]
  refine ⟨fun h1 h2 hn => copy_core_fits m dest cap n src hz hnz h1 h2 hn,
    fun h1 h2 hn => copy_core_truncates m dest cap n src hnz hz h1 h2 hn, fun h => ?_⟩
  rw [copy_core_invalid m dest cap src h]

/-- Witness for C5, the scenario `Copy(D, 3, "abcd")`: the result is
`STRSAFE_E_INSUFFICIENT_BUFFER` and `D` holds `"ab"` and a terminator; with it
`Copy(D, 6, "abcd")`, `Copy(D, 0, "abcd")` and a capacity above the ceiling. -/
theorem stringCchCopy_contract_witness :
    ((fun i => [97, 98, 99, 100].getD i 0) 4 = 0 ∧
      ∀ i, i < 4 → (fun i => [97, 98, 99, 100].getD i 0) i ≠ 0) ∧
    ((StringCchCopy false 10 3 (fun i => [97, 98, 99, 100].getD i 0) garbage).1
        = STRSAFE_E_INSUFFICIENT_BUFFER ∧
      (∀ i, i < 3 - 1 →
        (StringCchCopy false 10 3 (fun i => [97, 98, 99, 100].getD i 0) garbage).2 (10 + i)
          = (fun i => [97, 98, 99, 100].getD i 0) i) ∧
      (StringCchCopy false 10 3 (fun i => [97, 98, 99, 100].getD i 0) garbage).2
        (10 + (3 - 1)) = 0) ∧
    (StringCchCopy false 10 3 (fun i => [97, 98, 99, 100].getD i 0) garbage).2.readList 10 4
      = [97, 98, 0, 0xAA] ∧
    ((StringCchCopy true 10 6 (fun i => [97, 98, 99, 100].getD i 0) garbage).1 = S_OK ∧
      (∀ i, i < 4 →
        (StringCchCopy true 10 6 (fun i => [97, 98, 99, 100].getD i 0) garbage).2 (10 + i)
          = (fun i => [97, 98, 99, 100].getD i 0) i) ∧
      (StringCchCopy true 10 6 (fun i => [97, 98, 99, 100].getD i 0) garbage).2 (10 + 4) = 0) ∧
    (StringCchCopy false 10 0 (fun i => [97, 98, 99, 100].getD i 0) garbage).1
      = STRSAFE_E_INVALID_PARAMETER ∧
    (StringCchCopy false 10 (STRSAFE_MAX_CCH + 1) (fun i => [97, 98, 99, 100].getD i 0)
      garbage).1 = STRSAFE_E_INVALID_PARAMETER :=
  ⟨⟨by decide, by decide⟩,
    (stringCchCopy_contract false 10 3 4 (fun i => [97, 98, 99, 100].getD i 0) garbage
      (by decide) (by decide)).2.1 (by decide) (by decide) (by decide),
    by decide,
    (stringCchCopy_contract true 10 6 4 (fun i => [97, 98, 99, 100].getD i 0) garbage
      (by decide) (by decide)).1 (by decide) (by decide) (by decide),
    (stringCchCopy_contract false 10 0 4 (fun i => [97, 98, 99, 100].getD i 0) garbage
      (by decide) (by decide)).2.2 (Or.inl rfl),
    (stringCchCopy_contract false 10 (STRSAFE_MAX_CCH + 1) 4
      (fun i => [97, 98, 99, 100].getD i 0) garbage
      (by decide) (by decide)).2.2 (Or.inr (by decide))⟩

/-! ## The capacity ceiling -/

/-- C11: the capacity ceiling `STRSAFE_MAX_CCH` equals `2^31 - 1 = 2,147,483,647`
(`0x7fffffff`); it is a value of a signed 32-bit integer and its successor, `2^31`, is
not, so it is the largest one. -/
theorem max_cch_value :
    STRSAFE_MAX_CCH = 2 ^ 31 - 1 ∧ STRSAFE_MAX_CCH = 2147483647 ∧
    STRSAFE_MAX_CCH = 0x7fffffff ∧ STRSAFE_MAX_CCH + 1 = 2 ^ 31 ∧
    fitsInt32 (STRSAFE_MAX_CCH : Int) = true ∧
    fitsInt32 ((STRSAFE_MAX_CCH : Int) + 1) = false := by
  decide

/-! ## The capacity a wrapper hands to its callee -/

/-- Counterexample for C12: `StringCbPrintfW(D, 13, ...)` and `StringCbPrintfExW(D, 13, ...)`
hand the byte count 13 itself to the operation they route to, not the 6 code units
that division by a two-byte code unit gives. -/
theorem printf_normalizes_capacity_counterexample :
    StringCbPrintfW capacityProbe 0 13 [] [] 0 = (S_OK, 13) ∧
    StringCbPrintfExW capacityProbeEx 0 13 0 0 0 [] [] 0 = (S_OK, 13) ∧
    normalizeCapacity 2 13 = 6 ∧
    StringCbPrintfW capacityProbe 0 13 [] [] 0
      ≠ capacityProbe.StringCbVPrintfW 0 (normalizeCapacity 2 13) [] (va_start []) 0 ∧
    StringCbPrintfExW capacityProbeEx 0 13 0 0 0 [] [] 0
      ≠ capacityProbeEx.StringCbVPrintfExW 0 (normalizeCapacity 2 13) 0 0 0 []
          (va_start []) 0 := by
  decide

/-- C12 (amended): each of the eight Printf entry points hands its capacity argument
unchanged to the VPrintf or VPrintfEx entry point of the same stem and width, together
with the other arguments; a byte-stem entry point hands over the byte count itself,
without dividing it by the size of a code unit. -/
theorem printf_capacity_passed_unchanged {σ : Type} (lib : VPrintfFamily σ)
    (libEx : VPrintfExFamily σ) (pszDest cap ppszDestEnd pRemaining dwFlags : Nat)
    (pszFormat : List Nat) (tail : List Arg) (s : σ) :
    StringCchPrintfA lib pszDest cap pszFormat tail s
      = lib.StringCchVPrintfA pszDest cap pszFormat (va_start tail) s ∧
    StringCchPrintfW lib pszDest cap pszFormat tail s
      = lib.StringCchVPrintfW pszDest cap pszFormat (va_start tail) s ∧
    StringCbPrintfA lib pszDest cap pszFormat tail s
      = lib.StringCbVPrintfA pszDest cap pszFormat (va_start tail) s ∧
    StringCbPrintfW lib pszDest cap pszFormat tail s
      = lib.StringCbVPrintfW pszDest cap pszFormat (va_start tail) s ∧
    StringCchPrintfExA libEx pszDest cap ppszDestEnd pRemaining dwFlags pszFormat tail s
      = libEx.StringCchVPrintfExA pszDest cap ppszDestEnd pRemaining dwFlags pszFormat
          (va_start tail) s ∧
    StringCchPrintfExW libEx pszDest cap ppszDestEnd pRemaining dwFlags pszFormat tail s
      = libEx.StringCchVPrintfExW pszDest cap ppszDestEnd pRemaining dwFlags pszFormat
          (va_start tail) s ∧
    StringCbPrintfExA libEx pszDest cap ppszDestEnd pRemaining dwFlags pszFormat tail s
      = libEx.StringCbVPrintfExA pszDest cap ppszDestEnd pRemaining dwFlags pszFormat
          (va_start tail) s ∧
    StringCbPrintfExW libEx pszDest cap ppszDestEnd pRemaining dwFlags pszFormat tail s
      = libEx.StringCbVPrintfExW pszDest cap ppszDestEnd pRemaining dwFlags pszFormat
          (va_start tail) s :=
  ⟨rfl, rfl, rfl, rfl, rfl, rfl, rfl, rfl⟩

/-! ## OR-combining results -/

theorem lor_eq_zero_iff (a b : Nat) : a ||| b = 0 ↔ a = 0 ∧ b = 0 := by
  constructor
  · intro h
    have hbit : ∀ i, (a.testBit i || b.testBit i) = false := by
      intro i
      rw [← Nat.testBit_or, h, Nat.zero_testBit]
    constructor
    · apply Nat.eq_of_testBit_eq
      intro i
      have := hbit i
      rw [Bool.or_eq_false_iff] at this
      rw [this.1, Nat.zero_testBit]
    · apply Nat.eq_of_testBit_eq
      intro i
      have := hbit i
      rw [Bool.or_eq_false_iff] at this
      rw [this.2, Nat.zero_testBit]
  · rintro ⟨rfl, rfl⟩
    rfl

/-- C13: for every two result values `a` and `b`, `SUCCEEDED(a | b)` holds exactly when
`SUCCEEDED(a)` and `SUCCEEDED(b)` both hold, and `FAILED(a | b)` exactly when `FAILED(a)`
or `FAILED(b)`; the OR of two 32-bit values is again a 32-bit value. -/
theorem succeeded_or_iff (a b : Nat) :
    (SUCCEEDED (a ||| b) = true ↔ SUCCEEDED a = true ∧ SUCCEEDED b = true) ∧
    (FAILED (a ||| b) = true ↔ FAILED a = true ∨ FAILED b = true) ∧
    toUInt32 (toUInt32 a ||| toUInt32 b) = toUInt32 a ||| toUInt32 b := by
  have hok : S_OK = 0 := rfl
  have hor := lor_eq_zero_iff a b
  refine ⟨?_, ?_, ?_⟩
  · simp only [SUCCEEDED, hok, beq_iff_eq]
    exact hor
  · simp only [FAILED, hok, bne_iff_ne, ne_eq]
    rw [hor]
    exact not_and_or
  · unfold toUInt32
    exact Nat.mod_eq_of_lt
      (Nat.or_lt_two_pow (Nat.mod_lt _ (by decide)) (Nat.mod_lt _ (by decide)))

end StrSafe
